import Mathlib

/-!
Verification of the security-checker scripts of go-safe-cmd-runner.

Shallow embedding of `scripts/security_checker.py` (suffix `_sc` where the two
modules differ) and `scripts/additional-security-checks.py` (suffix `_asc`).
Python strings are modelled as `List Char`; bytes read from a binary file are
modelled as `Nat` values, as produced by iterating over a Python `bytes`
object.  File-system reads are modelled by passing the read outcome as data:
`Option` for reads whose IOError is caught locally, `Except` for the
exception-catching `try` block of `check_binary_security`.  Console output is
pure side information; where a claim talks about a warning being emitted, the
embedding returns a Boolean flag recording whether the warning branch ran.
-/

namespace SecurityCheck

/-- Python `s.startswith(pat)` over `List Char`. -/
def startsWithL : List Char → List Char → Bool
  | [], _ => true
  | _ :: _, [] => false
  | p :: ps, c :: cs => p == c && startsWithL ps cs

/-- Python substring containment `pat in s` over `List Char`. -/
def containsSub (pat : List Char) : List Char → Bool
  | [] => startsWithL pat []
  | c :: cs => startsWithL pat (c :: cs) || containsSub pat cs

/-- Python `s.endswith(suf)` over `List Char`. -/
def endsWithL (suf s : List Char) : Bool := startsWithL suf.reverse s.reverse

/-- The ASCII whitespace characters removed by Python `str.strip()`
(the source files scanned by the checker are ASCII). -/
def isPySpace (c : Char) : Bool :=
  c == ' ' || c == '\t' || c == '\n' || c == '\r' || c == Char.ofNat 11 || c == Char.ofNat 12

/-- Python `s.strip()` over `List Char`. -/
def pyStrip (s : List Char) : List Char :=
  ((s.dropWhile isPySpace).reverse.dropWhile isPySpace).reverse

/-! ## StringExtractor: `extract_strings_from_binary`

Both modules scan the file content byte by byte with the same loop
(`security_checker.py` lines 84-101 reads the whole buffer first,
`additional-security-checks.py` lines 77-105 streams one byte at a time;
the per-byte state machine is identical).  The `decode("ascii")` in the
streaming variant cannot fail because every accumulated byte is in 32..126,
and `chr(byte)` in the other variant is the same decoding. -/

/-- The printability test of the loop: `32 <= byte <= 126`. -/
def printableB (b : Nat) : Bool := decide (32 ≤ b) && decide (b ≤ 126)

/-- Decoding of a run of printable bytes as ASCII. -/
def decodeAscii (r : List Nat) : List Char := r.map Char.ofNat

/-- The byte loop of `extract_strings_from_binary`: `cur` is the
`current_string` accumulator; on a non-printable byte (and at end of input)
the accumulator is flushed when it has at least `minLen` characters. -/
def extractLoop (minLen : Nat) : List Char → List Nat → List (List Char)
  | cur, [] => if minLen ≤ cur.length then [cur] else []
  | cur, b :: rest =>
    if printableB b then extractLoop minLen (cur ++ [Char.ofNat b]) rest
    else if minLen ≤ cur.length then cur :: extractLoop minLen [] rest
    else extractLoop minLen [] rest

/-- `SecurityChecker.extract_strings_from_binary`, pure part: the list of
strings extracted from the file content `data` with minimum length `minLen`
(the Python default is `min_length = 4`). -/
def extract_strings_from_binary (data : List Nat) (minLen : Nat) : List (List Char) :=
  extractLoop minLen [] data

/-- `extract_strings_from_binary` of `security_checker.py` including its
IOError handling (lines 78-82): a failed read (`none`) yields `[]` with no
warning printed.  Second component: whether a warning was emitted. -/
def extract_strings_sc (readResult : Option (List Nat)) (minLen : Nat) :
    List (List Char) × Bool :=
  match readResult with
  | none => ([], false)
  | some data => (extract_strings_from_binary data minLen, false)

/-- `extract_strings_from_binary` of `additional-security-checks.py` including
its IOError handling (lines 107-109): a failed read yields `[]` after
`print_warning`.  Second component: whether a warning was emitted. -/
def extract_strings_asc (readResult : Option (List Nat)) (minLen : Nat) :
    List (List Char) × Bool :=
  match readResult with
  | none => ([], true)
  | some data => (extract_strings_from_binary data minLen, false)

/-- Helper for the reference scanner: first maximal printable prefix run of
the input together with the remaining delimited runs; structurally mirrors
scanning from the right. -/
def segsB : List Nat → List Nat × List (List Nat)
  | [] => ([], [])
  | b :: rest =>
    if printableB b then (b :: (segsB rest).1, (segsB rest).2)
    else ([], (segsB rest).1 :: (segsB rest).2)

/-- Modelled from the spec claim: the maximal runs of consecutive bytes whose
values lie in the printable range 32..126, ordered by byte offset, with no
deduplication.  A run begins at a printable byte, extends as far as
printability holds (`takeWhile`), and scanning resumes after it. -/
def maximalRuns : List Nat → List (List Nat)
  | [] => []
  | b :: rest =>
    if hb : printableB b = true then
      ((b :: rest).takeWhile printableB) :: maximalRuns ((b :: rest).dropWhile printableB)
    else
      maximalRuns rest
termination_by data => data.length
decreasing_by
  · simp only [List.dropWhile_cons_of_pos hb]
    have hle : ∀ l : List Nat, (l.dropWhile printableB).length ≤ l.length := by
      intro l
      induction l with
      | nil => simp [List.dropWhile]
      | cons a t ih =>
        rw [List.dropWhile_cons]
        split
        · exact Nat.le_succ_of_le ih
        · exact Nat.le_refl _
    exact Nat.lt_succ_of_le (hle rest)
  · simp only [List.length_cons]
    exact Nat.lt_succ_self _

/-! ## ArtifactClassifier: `check_binary_security`

The hard-fail patterns (`test_patterns`, both modules), the soft-fail
patterns (`user_test_patterns`) and the per-string suppression test of
`_contains_user_test_file` (`security_checker.py` lines 193-204). -/

/-- Hard-fail patterns `test_patterns` of `check_binary_security`. -/
def test_patterns : List (List Char) :=
  [("NewManagerForTest").toList, ("testing.T").toList, ("_test.go").toList]

/-- Soft-fail patterns `user_test_patterns` (`security_checker.py` line 135). -/
def user_test_patterns : List (List Char) :=
  [("test.go").toList, ("testing.go").toList]

/-- The per-string suppression test of `_contains_user_test_file`: entries
that look like Go toolchain or module-cache paths are skipped. -/
def toolchainSkip (s : List Char) : Bool :=
  containsSub (("toolchain@").toList) s || containsSub (("/go/pkg/mod/").toList) s

/-- `SecurityChecker._contains_user_test_file` (`security_checker.py`
lines 193-204): some string that is not suppressed contains a soft-fail
pattern. -/
def contains_user_test_file (strs : List (List Char)) : Bool :=
  strs.any (fun s => !toolchainSkip s && user_test_patterns.any (fun pat => containsSub pat s))

/-- The hard-fail scan of `check_binary_security`: `test_functions_found` is
set when some pattern has at least one matching string (the loop breaks at
the first such pattern, so the flag equals this disjunction). -/
def test_functions_found (strs : List (List Char)) : Bool :=
  test_patterns.any (fun pat => strs.any (fun s => containsSub pat s))

/-- Outcome of `check_binary_security`: the returned Boolean, plus whether
the warning of the `except` handler (analysis failure) was emitted. -/
structure BinSecOutcome where
  result : Bool
  analysisFailWarned : Bool
deriving DecidableEq

/-- `SecurityChecker.check_binary_security` of `security_checker.py`
(lines 103-155).  `isFile` is the `Path(binary_path).is_file()` test;
`tryOutcome` is the body of the `try` block: `Except.error` models an
exception raised during string extraction or analysis, `Except.ok strs`
models a successful extraction of `strs`. -/
def check_binary_security_sc (isFile : Bool)
    (tryOutcome : Except (List Char) (List (List Char))) : BinSecOutcome :=
  if isFile then
    match tryOutcome with
    | .error _ => ⟨true, true⟩
    | .ok strs =>
      if test_functions_found strs then ⟨false, false⟩
      else if contains_user_test_file strs then ⟨false, false⟩
      else ⟨true, false⟩
  else ⟨false, false⟩

/-- `SecurityChecker.check_binary_security` of
`additional-security-checks.py` (lines 113-158): same hard-fail scan, but no
soft-fail verdict — strings other than hard-fail matches can at most produce
a development-debug-symbols warning, never a False return. -/
def check_binary_security_asc (isFile : Bool)
    (tryOutcome : Except (List Char) (List (List Char))) : BinSecOutcome :=
  if isFile then
    match tryOutcome with
    | .error _ => ⟨true, true⟩
    | .ok strs =>
      if test_functions_found strs then ⟨false, false⟩ else ⟨true, false⟩
  else ⟨false, false⟩

/-! ## PermissionAuditor: `check_binary_permissions`

`mode` is `stat().st_mode`.  The result pair is (returned Boolean, whether
the owner-permissions warning was emitted). -/

/-- `check_binary_permissions` of `security_checker.py` (lines 206-233):
warns when the owner read+execute bits `0o500` are not both set, hard-fails
only when no execute bit (owner, group or other, mask `0o111`) is set. -/
def check_binary_permissions_sc (isFile : Bool) (mode : Nat) : Bool × Bool :=
  if isFile then
    let warned := !((mode &&& 0o500) == 0o500)
    if (mode &&& 0o111) == 0 then (false, warned) else (true, warned)
  else (true, false)

/-- `check_binary_permissions` of `additional-security-checks.py`
(lines 305-330): warns when the owner permission triple is not `rwx` (7),
hard-fails only when no execute bit is set. -/
def check_binary_permissions_asc (isFile : Bool) (mode : Nat) : Bool × Bool :=
  if isFile then
    let warned := !(((mode &&& 0o700) >>> 6) == 7)
    if (mode &&& 0o111) == 0 then (false, warned) else (true, warned)
  else (true, false)

/-! ## Build-tag gate: `check_build_tags`

Identical in both modules.  A discovered `.go` file is modelled by its
`Path.parts`, its `Path.name` and the outcome of `readlines()` (`none` when
the read raises IOError or UnicodeDecodeError, in which case the file is
skipped with a warning). -/

structure TagFile where
  parts : List (List Char)
  name : List Char
  lines : Option (List (List Char))
deriving DecidableEq

/-- The vendor-directory exclusion `"vendor" in go_file.parts`. -/
def vendorSkip (parts : List (List Char)) : Bool := parts.contains (("vendor").toList)

/-- The filename filter of `check_build_tags`. -/
def eligibleTagName (name : List Char) : Bool :=
  name == ("manager_testing.go").toList || endsWithL (("_testing.go").toList) name

/-- The package-declaration index: first line whose stripped form starts with
`package `. -/
def pkgIdx (lines : List (List Char)) : Option Nat :=
  lines.findIdx? (fun l => startsWithL (("package ").toList) (pyStrip l))

/-- The build-constraint scan: some line before the package declaration (all
lines when there is none) starts, after stripping, with `//go:build test`. -/
def hasTestConstraint (lines : List (List Char)) : Bool :=
  (lines.take ((pkgIdx lines).getD lines.length)).any
    (fun l => startsWithL (("//go:build test").toList) (pyStrip l))

/-- Whether `check_build_tags` appends this file to
`files_without_test_tag`. -/
def tagFileFlagged (f : TagFile) : Bool :=
  !vendorSkip f.parts && eligibleTagName f.name &&
    (match f.lines with
     | none => false
     | some ls => !hasTestConstraint ls)

/-- The `files_without_test_tag` list accumulated by `check_build_tags` over
the discovered files, in discovery order. -/
def files_without_test_tag (files : List TagFile) : List TagFile :=
  files.filter tagFileFlagged

/-- `SecurityChecker.check_build_tags`: True exactly when no file was
reported. -/
def check_build_tags (files : List TagFile) : Bool :=
  (files_without_test_tag files).isEmpty

/-! ## PatternScanner: `check_forbidden_patterns`

A discovered `.go` file is modelled by `str(go_file)`, `Path.parts`,
`Path.name` and the outcome of reading its text (`none` when the read raises
IOError or UnicodeDecodeError, in which case the file is skipped). -/

structure SrcFile where
  pathStr : List Char
  parts : List (List Char)
  name : List Char
  text : Option (List Char)
deriving DecidableEq

/-- Check (a): forbidden `--hash-directory` flag usage (identical in both
modules; unreadable and vendored files are skipped). -/
def hashFlagMatch (f : SrcFile) : Bool :=
  !vendorSkip f.parts &&
    (match f.text with
     | none => false
     | some t => containsSub (("--hash-directory").toList) t)

/-- Check (b): direct `newManagerInternal` usage outside the verification
package (identical in both modules; vendored files, files under
`internal/verification` and `_test.go` files are skipped). -/
def newManagerInternalMatch (f : SrcFile) : Bool :=
  !(vendorSkip f.parts || containsSub (("internal/verification").toList) f.pathStr
      || endsWithL (("_test.go").toList) f.name) &&
    (match f.text with
     | none => false
     | some t => containsSub (("newManagerInternal").toList) t)

/-- Check (c) of `security_checker.py` (lines 326-347): hardcoded
`go-safe-cmd-runner/hashes` references, skipping vendored files, tests, the
whitelisted definition file and Makefile paths. -/
def hardcodedHashDirMatch_sc (f : SrcFile) : Bool :=
  !(vendorSkip f.parts || endsWithL (("_test.go").toList) f.name
      || f.pathStr == ("internal/cmdcommon/common.go").toList
      || containsSub (("Makefile").toList) f.pathStr) &&
    (match f.text with
     | none => false
     | some t => containsSub (("go-safe-cmd-runner/hashes").toList) t)

/-- Check (c) of `additional-security-checks.py` (lines 279-297): hardcoded
`.gocmdhashes` references, skipping vendored files and tests. -/
def hardcodedHashDirMatch_asc (f : SrcFile) : Bool :=
  !(vendorSkip f.parts || endsWithL (("_test.go").toList) f.name) &&
    (match f.text with
     | none => false
     | some t => containsSub ((".gocmdhashes").toList) t)

/-- `SecurityChecker.check_forbidden_patterns` of `security_checker.py`
(lines 276-353).  First component: the returned Boolean
(`not patterns_found`, where `patterns_found` is set by checks (a) and (b)
only).  Second component: whether the check (c) warning was emitted. -/
def check_forbidden_patterns_sc (files : List SrcFile) : Bool × Bool :=
  (!(!(files.filter hashFlagMatch).isEmpty || !(files.filter newManagerInternalMatch).isEmpty),
   !(files.filter hardcodedHashDirMatch_sc).isEmpty)

/-- `SecurityChecker.check_forbidden_patterns` of
`additional-security-checks.py` (lines 229-303): identical checks (a) and
(b); check (c) differs but again only emits a warning. -/
def check_forbidden_patterns_asc (files : List SrcFile) : Bool × Bool :=
  (!(!(files.filter hashFlagMatch).isEmpty || !(files.filter newManagerInternalMatch).isEmpty),
   !(files.filter hardcodedHashDirMatch_asc).isEmpty)

/-- Fixture for the build-tag witness: a manager_testing.go file whose lines
contain no build-constraint marker before the package declaration. -/
def tagFileW : TagFile :=
  ⟨[("internal").toList, ("manager_testing.go").toList], ("manager_testing.go").toList,
    some [("package main").toList]⟩

/-! ## General list lemmas -/

theorem filter_map_comm {α β : Type} (f : α → β) (p : β → Bool) (l : List α) :
    (l.map f).filter p = (l.filter (fun a => p (f a))).map f := by
  induction l with
  | nil => rfl
  | cons a t ih =>
    simp only [List.map_cons, List.filter_cons]
    cases h : p (f a) <;> simp [h, ih]

theorem filter_filter_of_imp {α : Type} (p q : α → Bool)
    (h : ∀ a, p a = true → q a = true) (l : List α) :
    (l.filter q).filter p = l.filter p := by
  induction l with
  | nil => rfl
  | cons a t ih =>
    cases hq : q a
    · cases hp : p a
      · simp [List.filter_cons, hp, hq, ih]
      · exact absurd (h a hp) (by simp [hq])
    · cases hp : p a <;> simp [List.filter_cons, hp, hq, ih]

theorem any_congr_mem {α : Type} {p q : α → Bool} (l : List α)
    (h : ∀ a ∈ l, p a = q a) : l.any p = l.any q := by
  induction l with
  | nil => rfl
  | cons a t ih =>
    simp only [List.any_cons]
    rw [h a (List.mem_cons_self a t), ih (fun x hx => h x (List.mem_cons_of_mem a hx))]

theorem filter_isEmpty_iff {α : Type} (p : α → Bool) (l : List α) :
    (l.filter p).isEmpty = true ↔ ∀ a ∈ l, p a = false := by
  induction l with
  | nil => simp
  | cons a t ih =>
    cases hp : p a
    · simp [List.filter_cons, hp, ih]
    · simp [List.filter_cons, hp]

theorem filter_isEmpty_false_iff {α : Type} (p : α → Bool) (l : List α) :
    (!(l.filter p).isEmpty) = true ↔ ∃ a ∈ l, p a = true := by
  induction l with
  | nil => simp
  | cons a t ih =>
    cases hp : p a
    · simp [List.filter_cons, hp, ih]
    · simp [List.filter_cons, hp]

theorem dropWhile_length_le {α : Type} (p : α → Bool) (l : List α) :
    (l.dropWhile p).length ≤ l.length := by
  induction l with
  | nil => simp [List.dropWhile]
  | cons a t ih =>
    rw [List.dropWhile_cons]
    split
    · exact Nat.le_succ_of_le ih
    · exact Nat.le_refl _

theorem dropWhile_head_false {α : Type} (p : α → Bool) :
    ∀ (l : List α) (c : α) (d : List α), l.dropWhile p = c :: d → p c = false := by
  intro l
  induction l with
  | nil => intro c d h; simp [List.dropWhile] at h
  | cons a t ih =>
    intro c d h
    rw [List.dropWhile_cons] at h
    cases hpa : p a
    · simp only [hpa, Bool.false_eq_true, if_false] at h
      obtain ⟨h1, h2⟩ := List.cons.inj h
      subst h1
      exact hpa
    · simp only [hpa, if_true] at h
      exact ih c d h

/-! ## The extraction loop computes the printable-delimited segments -/

theorem maximalRuns_nil : maximalRuns [] = [] := by
  rw [maximalRuns]

theorem maximalRuns_cons_pos (b : Nat) (rest : List Nat) (hb : printableB b = true) :
    maximalRuns (b :: rest) =
      ((b :: rest).takeWhile printableB) :: maximalRuns ((b :: rest).dropWhile printableB) := by
  rw [maximalRuns, dif_pos hb]

theorem maximalRuns_cons_neg (b : Nat) (rest : List Nat) (hb : ¬ printableB b = true) :
    maximalRuns (b :: rest) = maximalRuns rest := by
  rw [maximalRuns, dif_neg hb]

theorem segsB_fst (data : List Nat) : (segsB data).1 = data.takeWhile printableB := by
  induction data with
  | nil => rfl
  | cons b rest ih =>
    cases hb : printableB b
    · simp [segsB, hb, List.takeWhile_cons]
    · simp [segsB, hb, List.takeWhile_cons, ih]

theorem segsB_snd_dropWhile (data : List Nat) :
    (segsB data).2 = (segsB (data.dropWhile printableB)).2 := by
  induction data with
  | nil => rfl
  | cons b rest ih =>
    cases hb : printableB b
    · simp [List.dropWhile_cons, hb]
    · simp [segsB, List.dropWhile_cons, hb, ih]

theorem extractLoop_eq (minLen : Nat) (data : List Nat) : ∀ cur : List Char,
    extractLoop minLen cur data =
      ((cur ++ decodeAscii (segsB data).1) :: (segsB data).2.map decodeAscii).filter
        (fun r => decide (minLen ≤ r.length)) := by
  induction data with
  | nil =>
    intro cur
    simp only [extractLoop, segsB, decodeAscii, List.map_nil, List.append_nil,
      List.filter_cons, List.filter_nil]
    by_cases h : minLen ≤ cur.length <;> simp [h]
  | cons b rest ih =>
    intro cur
    cases hb : printableB b
    · simp only [extractLoop, hb, Bool.false_eq_true, if_false, segsB]
      rw [ih []]
      simp only [List.nil_append, decodeAscii, List.map_nil, List.append_nil, List.map_cons,
        List.filter_cons]
      by_cases h : minLen ≤ cur.length <;> simp [h]
    · simp only [extractLoop, hb, if_true, segsB]
      rw [ih (cur ++ [Char.ofNat b])]
      simp [decodeAscii, List.append_assoc]

theorem segsB_filter_maximalRuns (m : Nat) (hm : 1 ≤ m) :
    ∀ (n : Nat) (data : List Nat), data.length ≤ n →
      ((segsB data).1 :: (segsB data).2).filter (fun r => decide (m ≤ r.length)) =
        (maximalRuns data).filter (fun r => decide (m ≤ r.length)) := by
  intro n
  induction n with
  | zero =>
    intro data h
    have hn : data = [] := List.eq_nil_of_length_eq_zero (Nat.le_zero.mp h)
    subst hn
    have hkeep : (decide (m ≤ ([] : List Nat).length)) = false := by
      simp only [List.length_nil, decide_eq_false_iff_not]
      omega
    simp only [segsB, maximalRuns_nil, List.filter_cons, List.filter_nil, hkeep,
      Bool.false_eq_true, if_false]
  | succ n ih =>
    intro data h
    match data with
    | [] =>
      have hkeep : (decide (m ≤ ([] : List Nat).length)) = false := by
        simp only [List.length_nil, decide_eq_false_iff_not]
        omega
      simp only [segsB, maximalRuns_nil, List.filter_cons, List.filter_nil, hkeep,
        Bool.false_eq_true, if_false]
    | b :: rest =>
      have h2 : rest.length ≤ n := by
        simp only [List.length_cons] at h
        omega
      cases hb : printableB b
      · rw [maximalRuns_cons_neg b rest (by simp [hb])]
        have hkeep : (decide (m ≤ ([] : List Nat).length)) = false := by
          simp only [List.length_nil, decide_eq_false_iff_not]
          omega
        simp only [segsB, hb, Bool.false_eq_true, if_false]
        rw [← ih rest h2]
        simp only [List.filter_cons, hkeep, Bool.false_eq_true, if_false]
      · rw [maximalRuns_cons_pos b rest hb, List.dropWhile_cons_of_pos hb]
        have hsnd : (segsB (b :: rest)).2 = (segsB rest).2 := by simp [segsB, hb]
        have htail : ((segsB rest).2).filter (fun r => decide (m ≤ r.length)) =
            (maximalRuns (rest.dropWhile printableB)).filter (fun r => decide (m ≤ r.length)) := by
          rw [segsB_snd_dropWhile rest]
          cases hd : rest.dropWhile printableB with
          | nil => simp [segsB, maximalRuns_nil]
          | cons c d =>
            have hc : printableB c = false := dropWhile_head_false printableB rest c d hd
            have hlen : d.length ≤ n := by
              have hdw : (rest.dropWhile printableB).length ≤ rest.length :=
                dropWhile_length_le _ _
              rw [hd] at hdw
              simp only [List.length_cons] at hdw
              omega
            rw [maximalRuns_cons_neg c d (by simp [hc])]
            simp only [segsB, hc, Bool.false_eq_true, if_false]
            exact ih d hlen
        rw [List.filter_cons, List.filter_cons, segsB_fst (b :: rest), hsnd, htail]

/-! ## Claim C1 -/

/-- C1, counterexample: the claim quantifies over every minimum length `m`,
but the loop flushes the accumulator at each non-printable byte and at end
of file whenever its length is at least `m`, so with `m = 0` a flush can
emit the empty accumulator.  On the single byte `0` the accumulator is
empty at both flush points and the extractor returns two empty strings,
while the maximal printable runs of that input (filtered by length at least
0 and decoded) are none, so the output is not exactly the maximal runs. -/
theorem extract_zero_min_cex :
    extract_strings_from_binary [0] 0 = [[], []] ∧
    ((maximalRuns [0]).filter (fun r => decide (0 ≤ r.length))).map decodeAscii = [] := by
  constructor
  · rfl
  · rw [maximalRuns_cons_neg 0 [] (by decide), maximalRuns_nil]
    rfl

/-- C1, amended: for every byte sequence and every minimum length m with
m ≥ 1, `extract_strings_from_binary` returns exactly the maximal runs of
consecutive bytes with values in 32..126 whose length is at least m, decoded
as ASCII, in byte-offset order and without deduplication; in particular a
trailing run ending at end of file is still emitted when long enough. -/
theorem extract_eq_maximalRuns_filter (data : List Nat) (m : Nat) (hm : 1 ≤ m) :
    extract_strings_from_binary data m =
      ((maximalRuns data).filter (fun r => decide (m ≤ r.length))).map decodeAscii := by
  rw [extract_strings_from_binary, extractLoop_eq m data []]
  simp only [List.nil_append]
  have h2 : (decodeAscii (segsB data).1 :: (segsB data).2.map decodeAscii)
      = ((segsB data).1 :: (segsB data).2).map decodeAscii := by
    simp [List.map_cons]
  rw [h2, filter_map_comm]
  have h3 : (fun r : List Nat => decide (m ≤ (decodeAscii r).length))
      = (fun r => decide (m ≤ r.length)) := by
    funext r
    simp [decodeAscii]
  rw [h3, segsB_filter_maximalRuns m hm data.length data (Nat.le_refl _)]

/-- Witness for the C1 theorem: the spec example input 00 01 h e l l o (a
trailing printable run reaching end of file) with the default minimum 4. -/
theorem extract_eq_maximalRuns_filter_witness :
    1 ≤ 4 ∧
    extract_strings_from_binary [0, 1, 104, 101, 108, 108, 111] 4 =
      ((maximalRuns [0, 1, 104, 101, 108, 108, 111]).filter
        (fun r => decide (4 ≤ r.length))).map decodeAscii :=
  ⟨by decide, extract_eq_maximalRuns_filter [0, 1, 104, 101, 108, 108, 111] 4 (by decide)⟩

/-! ## Claim C10 -/

/-- C10: extraction with a larger minimum m2 is exactly extraction with a
smaller minimum m1 followed by a filter keeping the strings of length at
least m2. -/
theorem extract_min_filter (data : List Nat) (m1 m2 : Nat) (hm1 : 1 ≤ m1) (h12 : m1 ≤ m2) :
    extract_strings_from_binary data m2 =
      (extract_strings_from_binary data m1).filter (fun s => decide (m2 ≤ s.length)) := by
  rw [extract_strings_from_binary, extract_strings_from_binary,
    extractLoop_eq m2 data [], extractLoop_eq m1 data []]
  exact (filter_filter_of_imp _ _ (fun r hr => by
    simp only [decide_eq_true_eq] at hr ⊢
    omega) _).symm

/-- Witness for the C10 theorem: minimums 2 and 4 on a content with one run
of length 5 and one of length 3. -/
theorem extract_min_filter_witness :
    (1 ≤ 2 ∧ 2 ≤ 4) ∧
    extract_strings_from_binary [0, 104, 101, 108, 108, 111, 2, 97, 98, 99] 4 =
      (extract_strings_from_binary [0, 104, 101, 108, 108, 111, 2, 97, 98, 99] 2).filter
        (fun s => decide (4 ≤ s.length)) :=
  ⟨⟨by decide, by decide⟩, extract_min_filter _ 2 4 (by decide) (by decide)⟩

/-! ## Claim C2 -/

/-- C2, counterexample: in additional-security-checks.py the binary check
does not fail on user test files at all.  The extracted string
/home/user/proj/mytest.go contains the soft-fail pattern test.go, contains
no suppression-rule substring and no hard-fail pattern, yet
check_binary_security returns True there, contradicting the claimed overall
FAIL verdict. -/
theorem asc_user_test_pass_cex :
    containsSub (("test.go").toList) (("/home/user/proj/mytest.go").toList) = true ∧
    toolchainSkip (("/home/user/proj/mytest.go").toList) = false ∧
    (check_binary_security_asc true
      (Except.ok [("/home/user/proj/mytest.go").toList])).result = true := by
  refine ⟨by decide, by decide, by decide⟩

/-- C2, amended: in the security_checker.py variant, whenever some extracted
string contains a soft-fail (user-test-path) pattern and no suppression-rule
substring, the check marks a user-test-file finding and
check_binary_security returns False, regardless of the other strings. -/
theorem sc_user_test_fail (strs : List (List Char)) (s : List Char) (hs : s ∈ strs)
    (pat : List Char) (hp : pat ∈ user_test_patterns)
    (hc : containsSub pat s = true) (hsup : toolchainSkip s = false) :
    contains_user_test_file strs = true ∧
    (check_binary_security_sc true (Except.ok strs)).result = false := by
  have hcu : contains_user_test_file strs = true := by
    rw [contains_user_test_file, List.any_eq_true]
    refine ⟨s, hs, ?_⟩
    rw [hsup]
    simp only [Bool.not_false, Bool.true_and]
    exact List.any_eq_true.mpr ⟨pat, hp, hc⟩
  refine ⟨hcu, ?_⟩
  simp only [check_binary_security_sc, if_true]
  cases htf : test_functions_found strs <;> simp [htf, hcu]

/-- Witness for the C2 theorem, at the spec example string
/home/user/proj/helper_testing.go (matches testing.go, unsuppressed). -/
theorem sc_user_test_fail_witness :
    containsSub (("testing.go").toList) (("/home/user/proj/helper_testing.go").toList) = true ∧
    (contains_user_test_file [("/home/user/proj/helper_testing.go").toList] = true ∧
     (check_binary_security_sc true
       (Except.ok [("/home/user/proj/helper_testing.go").toList])).result = false) :=
  ⟨by decide,
   sc_user_test_fail [("/home/user/proj/helper_testing.go").toList]
     (("/home/user/proj/helper_testing.go").toList) (by simp)
     (("testing.go").toList) (by decide) (by decide) (by decide)⟩

/-! ## Claim C3 -/

/-- C3, counterexample: a string containing a suppression-rule substring can
still contribute a FAIL verdict, namely through the hard-fail patterns.
The string toolchain@v1/src/foo_test.go is suppressed, yet its presence
alone flips the verdict from PASS to FAIL because it contains the hard-fail
pattern _test.go. -/
theorem suppressed_hard_fail_cex :
    toolchainSkip (("toolchain@v1/src/foo_test.go").toList) = true ∧
    (check_binary_security_sc true
      (Except.ok [("toolchain@v1/src/foo_test.go").toList])).result = false ∧
    (check_binary_security_sc true (Except.ok ([] : List (List Char)))).result = true := by
  refine ⟨by decide, by decide, by decide⟩

/-- C3, amended: a string containing a suppression-rule substring is
exempted from soft-fail matching — whatever soft-fail patterns it contains,
it never contributes a user-test-file finding — and, when it additionally
contains no hard-fail pattern, its presence does not change the outcome of
the binary check at all.  Suppression does not exempt hard-fail patterns. -/
theorem suppressed_no_soft_fail_contribution (s : List Char)
    (hsup : toolchainSkip s = true)
    (l1 l2 : List (List Char)) :
    contains_user_test_file (l1 ++ s :: l2) = contains_user_test_file (l1 ++ l2) ∧
    (test_patterns.all (fun pat => !containsSub pat s) = true →
      check_binary_security_sc true (Except.ok (l1 ++ s :: l2)) =
        check_binary_security_sc true (Except.ok (l1 ++ l2))) := by
  have hcu : contains_user_test_file (l1 ++ s :: l2) = contains_user_test_file (l1 ++ l2) := by
    simp only [contains_user_test_file, List.any_append, List.any_cons, hsup]
    simp
  refine ⟨hcu, fun hall => ?_⟩
  have hnh : ∀ pat ∈ test_patterns, containsSub pat s = false := by
    intro pat hpat
    have h1 := List.all_eq_true.mp hall pat hpat
    simpa using h1
  have htf : test_functions_found (l1 ++ s :: l2) = test_functions_found (l1 ++ l2) := by
    rw [test_functions_found, test_functions_found]
    apply any_congr_mem
    intro pat hpat
    simp only [List.any_append, List.any_cons, hnh pat hpat]
    simp
  simp only [check_binary_security_sc, if_true, htf, hcu]

/-- Witness for the C3 theorem: the suppressed string
/go/pkg/mod/foo/mytest.go (which contains the soft-fail pattern test.go and
no hard-fail pattern) inserted into the empty string sequence. -/
theorem suppressed_no_soft_fail_contribution_witness :
    toolchainSkip (("/go/pkg/mod/foo/mytest.go").toList) = true ∧
    (contains_user_test_file [("/go/pkg/mod/foo/mytest.go").toList] =
       contains_user_test_file [] ∧
     (test_patterns.all (fun pat => !containsSub pat (("/go/pkg/mod/foo/mytest.go").toList)) = true →
      check_binary_security_sc true (Except.ok [("/go/pkg/mod/foo/mytest.go").toList]) =
        check_binary_security_sc true (Except.ok []))) :=
  ⟨by decide,
   suppressed_no_soft_fail_contribution (("/go/pkg/mod/foo/mytest.go").toList)
     (by decide) [] []⟩

/-! ## Claim C4 -/

/-- C4: whenever some extracted string contains a hard-fail pattern, both
variants of check_binary_security return False, regardless of suppression
rules and of soft-fail matches. -/
theorem hard_fail_always_fails (strs : List (List Char)) (s : List Char) (hs : s ∈ strs)
    (pat : List Char) (hp : pat ∈ test_patterns) (hc : containsSub pat s = true) :
    (check_binary_security_sc true (Except.ok strs)).result = false ∧
    (check_binary_security_asc true (Except.ok strs)).result = false := by
  have htf : test_functions_found strs = true := by
    rw [test_functions_found, List.any_eq_true]
    exact ⟨pat, hp, List.any_eq_true.mpr ⟨s, hs, hc⟩⟩
  constructor
  · simp [check_binary_security_sc, htf]
  · simp [check_binary_security_asc, htf]

/-- Witness for the C4 theorem: a string that is suppressed (contains
toolchain@) and still contains the hard-fail pattern _test.go. -/
theorem hard_fail_always_fails_witness :
    containsSub (("_test.go").toList) (("toolchain@x/foo_test.go").toList) = true ∧
    ((check_binary_security_sc true
        (Except.ok [("toolchain@x/foo_test.go").toList])).result = false ∧
     (check_binary_security_asc true
        (Except.ok [("toolchain@x/foo_test.go").toList])).result = false) :=
  ⟨by decide,
   hard_fail_always_fails [("toolchain@x/foo_test.go").toList]
     (("toolchain@x/foo_test.go").toList) (by simp)
     (("_test.go").toList) (by decide) (by decide)⟩

/-! ## Claim C5 -/

/-- C5: for an existing regular file, an exception raised inside the
try block of check_binary_security (string extraction or analysis) is
caught: both variants return True and emit the analysis-failure warning. -/
theorem analysis_exception_pass_with_warning (e : List Char) :
    check_binary_security_sc true (Except.error e) = ⟨true, true⟩ ∧
    check_binary_security_asc true (Except.error e) = ⟨true, true⟩ :=
  ⟨rfl, rfl⟩

/-! ## Claim C6 -/

/-- C6, counterexample: in security_checker.py a failed read makes
extract_strings_from_binary return the empty list with no warning emitted,
contradicting the claimed warning. -/
theorem sc_ioerror_no_warning_cex :
    extract_strings_sc none 4 = ([], false) := rfl

/-- C6, amended: when the file read raises an I/O error, both variants of
extract_strings_from_binary return the empty sequence and do not propagate
the error; the additional-security-checks.py variant emits a warning while
the security_checker.py variant returns silently. -/
theorem extract_ioerror_empty (minLen : Nat) :
    extract_strings_sc none minLen = ([], false) ∧
    extract_strings_asc none minLen = ([], true) :=
  ⟨rfl, rfl⟩

/-! ## Claim C7 -/

/-- C7, counterexample: the existing file with mode 0o055 lacks both owner
read and owner execute, yet both variants of check_binary_permissions
return True (a group/other execute bit is present), contradicting the
claimed hard failure. -/
theorem perm_missing_owner_rx_pass_cex :
    ((0o055 : Nat) &&& 0o500 = 0o500 → False) ∧
    (check_binary_permissions_sc true 0o055).1 = true ∧
    (check_binary_permissions_asc true 0o055).1 = true := by
  refine ⟨by decide, by decide, by decide⟩

/-- C7, amended: for an existing regular file, check_binary_permissions
returns False exactly when the mode has no execute bit at all (mask 0o111);
missing owner read+execute is only a warning in the security_checker.py
variant, and the additional-security-checks.py variant warns exactly when
the owner permission triple is not rwx. -/
theorem perm_characterization (mode : Nat) :
    ((check_binary_permissions_sc true mode).1 = false ↔ mode &&& 0o111 = 0) ∧
    ((check_binary_permissions_asc true mode).1 = false ↔ mode &&& 0o111 = 0) ∧
    ((check_binary_permissions_sc true mode).2 = true ↔ ¬ mode &&& 0o500 = 0o500) ∧
    ((check_binary_permissions_asc true mode).2 = true ↔ ¬ (mode &&& 0o700) >>> 6 = 7) := by
  unfold check_binary_permissions_sc check_binary_permissions_asc
  simp only [if_true]
  split_ifs with h1 <;> simp_all [beq_iff_eq]

/-! ## Claim C8 -/

/-- C8: a readable, non-vendored file whose name is manager_testing.go or
ends with _testing.go, and which has a package declaration at line index p,
is reported by check_build_tags (making it return False) exactly when no
line strictly before the package declaration starts, after stripping, with
the build-constraint marker. -/
theorem build_tags_marker_iff (files : List TagFile) (f : TagFile) (hf : f ∈ files)
    (hv : vendorSkip f.parts = false) (he : eligibleTagName f.name = true)
    (ls : List (List Char)) (hl : f.lines = some ls)
    (p : Nat) (hp : pkgIdx ls = some p) :
    (f ∈ files_without_test_tag files ↔
      ¬ ∃ l ∈ ls.take p, startsWithL (("//go:build test").toList) (pyStrip l) = true) ∧
    (f ∈ files_without_test_tag files → check_build_tags files = false) := by
  have hflag : tagFileFlagged f = (!hasTestConstraint ls) := by
    unfold tagFileFlagged
    rw [hv, he, hl]
    simp
  have hmem : f ∈ files_without_test_tag files ↔ tagFileFlagged f = true := by
    rw [files_without_test_tag, List.mem_filter]
    exact ⟨fun h => h.2, fun h => ⟨hf, h⟩⟩
  have hcon : hasTestConstraint ls = true ↔
      ∃ l ∈ ls.take p, startsWithL (("//go:build test").toList) (pyStrip l) = true := by
    rw [hasTestConstraint, hp]
    simp only [Option.getD_some]
    exact List.any_eq_true
  constructor
  · rw [hmem, hflag, Bool.not_eq_true', ← Bool.not_eq_true]
    exact not_congr hcon
  · intro hmem2
    show (files_without_test_tag files).isEmpty = false
    cases hfl : files_without_test_tag files with
    | nil => exact absurd (hfl ▸ hmem2) (List.not_mem_nil f)
    | cons a t => rfl

/-- Witness for the C8 theorem: a manager_testing.go file whose only line is
the package declaration (so no marker precedes it). -/
theorem build_tags_marker_iff_witness :
    (tagFileW ∈ files_without_test_tag [tagFileW] ↔
      ¬ ∃ l ∈ ([("package main").toList].take 0),
        startsWithL (("//go:build test").toList) (pyStrip l) = true) ∧
    (tagFileW ∈ files_without_test_tag [tagFileW] → check_build_tags [tagFileW] = false) :=
  build_tags_marker_iff [tagFileW] tagFileW (by simp) (by decide) (by decide)
    [("package main").toList] rfl 0 (by decide)

/-! ## Claim C9 -/

/-- C9: check_forbidden_patterns returns True exactly when no file matches
the forbidden-flag check (a) and no eligible file matches the
internal-constructor check (b); the hardcoded-path check (c) only drives the
warning component, identically present in both variants, and never flips
the returned result. -/
theorem forbidden_patterns_iff (files : List SrcFile) :
    ((check_forbidden_patterns_sc files).1 = true ↔
      (∀ f ∈ files, hashFlagMatch f = false) ∧
      (∀ f ∈ files, newManagerInternalMatch f = false)) ∧
    ((check_forbidden_patterns_asc files).1 = (check_forbidden_patterns_sc files).1) ∧
    ((check_forbidden_patterns_sc files).2 = true ↔
      ∃ f ∈ files, hardcodedHashDirMatch_sc f = true) ∧
    ((check_forbidden_patterns_asc files).2 = true ↔
      ∃ f ∈ files, hardcodedHashDirMatch_asc f = true) := by
  refine ⟨?_, rfl, ?_, ?_⟩
  · simp only [check_forbidden_patterns_sc, Bool.not_or, Bool.not_not, Bool.and_eq_true]
    rw [filter_isEmpty_iff, filter_isEmpty_iff]
  · simp only [check_forbidden_patterns_sc]
    exact filter_isEmpty_false_iff _ _
  · simp only [check_forbidden_patterns_asc]
    exact filter_isEmpty_false_iff _ _

end SecurityCheck
